import Mathlib

/-!
Shallow embedding of the rustlisp evaluation engine
(`src/parser/sexpr.rs`, `src/interpreter/{mod,environment,value}.rs`,
`src/intrinsics/{mod,macros,functions}.rs`) and proofs about the
spec's claims over it.

Modelling conventions:
* Rust `f64` numbers are modelled as `Int`; every claim under study only
  involves values on which `f64` arithmetic is exact.
* Rust `HashMap` is modelled as an association list where an insert conses
  the new pair in front; lookup takes the first match, which realises the
  insert-overwrites semantics.
* Rust function pointers (`Intrinsic`, `Macro`) are defunctionalised into
  the enumerations `IntrinsicId` / `MacroId`; the dispatchers `runIntrinsic`
  and `runMacro` hold the bodies of the corresponding Rust functions.
* A Rust `Result<Value>` together with the possibility of `panic!` /
  `process::exit` is modelled by `Outcome`; `&mut Environment` becomes
  explicit state passing, so every operation returns `Environment × Outcome`
  (the environment is returned also on the error path, which is what makes
  scope-leak behaviour observable).
* Evaluation is bounded by a fuel parameter; `Outcome.fuelOut` is an
  artifact of the model, not of the program.
-/

namespace RustLisp

/-- `SExpr` from `src/parser/sexpr.rs` (numbers as `Int`, see header). -/
inductive SExpr : Type
  | str (s : String)
  | num (n : Int)
  | bool (b : Bool)
  | ident (s : String) (variadic : Bool)
  | list (vals : List SExpr)
  | quote (e : SExpr)
  | nil
deriving Repr

/-- `Intrinsic` function pointers (`src/intrinsics/functions.rs`),
defunctionalised. Only the intrinsics the claims exercise are included. -/
inductive IntrinsicId : Type
  | exitI | beginI | add | isNum | isBool | isStr | isSymbol | isCons
  | isLambda | listI | cons | car | cdr | lenI | nth | isEq
deriving Repr, DecidableEq

/-- `Macro` function pointers (`src/intrinsics/macros.rs`), defunctionalised.
The three handlers installed by `_define_struct` are non-capturing closures
in the source (plain function pointers), so a single id serves every
struct type: each handler re-derives the type name from the identifier it
was invoked as. -/
inductive MacroId : Type
  | defineM | lambdaM | ifM | condM | letM | defineStructM
  | structPred | structAccessor | structCtor
deriving Repr, DecidableEq

/-- `Value` from `src/interpreter/value.rs`. -/
inductive Value : Type
  | num (n : Int)
  | bool (b : Bool)
  | str (s : String)
  | symbol (s : String) (variadic : Bool)
  | list (vals : List Value)
  | func (params : List String) (body : SExpr) (variadic : Bool)
  | intrinsic (f : IntrinsicId)
  | macroV (f : MacroId)
  | structV (name : String) (fields : List Value)
deriving Repr

/-- `RLError` (`src/err.rs`) is a bare description string built by the
constructors in `src/errors.rs` plus various ad-hoc `format!` sites; each
construction site becomes one constructor carrying the data interpolated
into the string. -/
inductive Err : Type
  | arityAtLeast (expected found : Nat)
  | arityAtMost (expected found : Nat)
  | arityExact (expected found : Nat)
  | unbound (ident : String)
  | notAFunction (val : Value)
  | notANumber (val : Value)
  | notAnIdentifier (e : SExpr)
  | notAList (e : SExpr)
  | notABool (e : SExpr)
  | reservedWord (s : String)
  | notABoolValue (v : Value)
  | notAListValue (v : Value)
  | notAStruct (v : Value)
  | notAnAccessor (s : String)
  | listIndexNotInteger
  | contractMismatch
  | custom (msg : String)
deriving Repr

/-- The result of running a piece of the interpreter.  `ok`/`error` are the
two sides of Rust's `Result<Value>`; `panic` models `panic!`, `unwrap` on
`None` and out-of-bounds indexing (process aborts); `exited` models
`process::exit`; `fuelOut` is the fuel artifact. -/
inductive Outcome : Type
  | ok (v : Value)
  | error (e : Err)
  | panic (msg : String)
  | exited (code : Int)
  | fuelOut
deriving Repr

/-- One scope frame (`Scope` in `src/interpreter/environment.rs`): a
`HashMap<String, Value>` as an association list.  The source's `caller`
field is write-only (never consulted by any lookup or claim-relevant
operation) and is omitted. -/
abbrev Scope : Type := List (String × Value)

/-- `HashMap::get` on a scope: first match wins. -/
def scopeGet (sc : Scope) (key : String) : Option Value :=
  match sc with
  | [] => none
  | (k, v) :: rest => if k = key then some v else scopeGet rest key

/-- `HashMap::insert` on a scope (overwrite = shadow the old pair). -/
def scopeInsert (sc : Scope) (key : String) (val : Value) : Scope :=
  (key, val) :: sc

/-- `Environment` from `src/interpreter/environment.rs`: a distinguished
base scope, a stack of scopes (top of stack = last element, matching
`Vec`), and the struct registry. -/
structure Environment : Type where
  base : Scope
  stack : List Scope
  structs : List (String × List String)

namespace Environment

/-- `Environment::default()`: empty base, empty registry, and one empty
scope pushed onto the stack. -/
def default : Environment :=
  { base := [], stack := [[]], structs := [] }

/-- `add_struct`: `HashMap::insert` into the registry. -/
def addStruct (env : Environment) (name : String) (fields : List String) :
    Environment :=
  { env with structs := (name, fields) :: env.structs }

/-- `get_struct`: registry lookup (first match wins, as for scopes). -/
def getStruct (env : Environment) (name : String) : Option (List String) :=
  match env.structs.find? (fun p => p.1 = name) with
  | some p => some p.2
  | none => none

/-- `enter_scope`: push an empty scope. -/
def enterScope (env : Environment) : Environment :=
  { env with stack := env.stack ++ [([] : Scope)] }

/-- `exit_scope`: pop the top scope.  The source `expect`s the stack to be
non-empty; no reachable call site pops an empty stack, and on the empty
stack this model leaves it empty. -/
def exitScope (env : Environment) : Environment :=
  { env with stack := env.stack.dropLast }

/-- `define`: insert into the current (top) scope.  `cur_scope_mut` indexes
`stack[len - 1]`; the stack is never empty at a call site. -/
def define (env : Environment) (key : String) (val : Value) : Environment :=
  match env.stack.getLast? with
  | some top =>
      { env with stack := env.stack.dropLast ++ [scopeInsert top key val] }
  | none => env

/-- `get`: walk the scope stack from innermost (last) to outermost.  Note:
the loop in the source iterates `self.stack` only — the `base` scope is
not consulted. -/
def get (env : Environment) (key : String) : Option Value :=
  match env.stack.reverse.findSome? (fun sc => scopeGet sc key) with
  | some v => some v
  | none => none

/-- `get_super`: when more than one scope is on the stack, walk
`stack[..len-1]` from innermost to outermost (skipping exactly the top
scope, never reaching `base`); with a single scope, look in `base` only. -/
def getSuper (env : Environment) (key : String) : Option Value :=
  if env.stack.length > 1 then
    match (env.stack.dropLast).reverse.findSome? (fun sc => scopeGet sc key) with
    | some v => some v
    | none => none
  else
    scopeGet env.base key

/-- `define_intrinsic` (`src/intrinsics/mod.rs`). -/
def defineIntrinsic (env : Environment) (name : String) (f : IntrinsicId) :
    Environment :=
  env.define name (Value.intrinsic f)

/-- `define_macro` (`src/intrinsics/mod.rs`). -/
def defineMacroV (env : Environment) (name : String) (f : MacroId) :
    Environment :=
  env.define name (Value.macroV f)

end Environment

/-- `empty()` / `nil()`: the empty-list value. -/
def nilV : Value := Value.list []

mutual

/-- `From<SExpr> for Value` (`src/interpreter/value.rs`): total. -/
def sexprToValue : SExpr → Value
  | .num n => .num n
  | .bool b => .bool b
  | .str s => .str s
  | .ident s v => .symbol s v
  | .list vals => .list (sexprListToValue vals)
  | .nil => .list []
  | .quote e => sexprToValue e

def sexprListToValue : List SExpr → List Value
  | [] => []
  | e :: rest => sexprToValue e :: sexprListToValue rest

end

mutual

/-- `Into<SExpr> for Value` (`src/interpreter/value.rs`).  The catch-all arm
(`Func`, `Intrinsic`, `Macro`) is `panic!("Evaluating other values is not
yet supported.")` in the source — a non-recoverable abort, modelled as
`Except.error` carrying the panic message. -/
def valueToSexpr : Value → Except String SExpr
  | .num n => .ok (.num n)
  | .bool b => .ok (.bool b)
  | .str s => .ok (.str s)
  | .symbol s v => .ok (.ident s v)
  | .list vals => (valueListToSexpr vals).map SExpr.list
  | .structV name fields =>
      (valueListToSexpr fields).map
        (fun es => SExpr.list (SExpr.ident ("make-" ++ name) false :: es))
  | .func _ _ _ => .error "Evaluating other values is not yet supported."
  | .intrinsic _ => .error "Evaluating other values is not yet supported."
  | .macroV _ => .error "Evaluating other values is not yet supported."

def valueListToSexpr : List Value → Except String (List SExpr)
  | [] => .ok []
  | v :: rest =>
      match valueToSexpr v with
      | .error msg => .error msg
      | .ok e =>
          match valueListToSexpr rest with
          | .error msg => .error msg
          | .ok es => .ok (e :: es)

end

mutual

/-- `PartialEq for Value` (`src/interpreter/value.rs`).  The wildcard arm
returns `false`, so closures, intrinsics and macro handlers are unequal to
everything, including themselves. -/
def valueEq : Value → Value → Bool
  | .num a, .num b => a == b
  | .bool a, .bool b => a == b
  | .str a, .str b => a == b
  | .symbol a av, .symbol b bv => a == b && av == bv
  | .list a, .list b =>
      if a.length == b.length then valueListEq a b else false
  | .structV an af, .structV bn bf =>
      if an == bn && af.length == bf.length then valueListEq af bf else false
  | _, _ => false

def valueListEq : List Value → List Value → Bool
  | [], [] => true
  | a :: as2, b :: bs => valueEq a b && valueListEq as2 bs
  | _, _ => false

end

/-! ## Intrinsic functions (`src/intrinsics/functions.rs`), claim-relevant
subset.  Each mirrors the Rust function of the same name; `&mut Environment`
becomes explicit state passing. -/

/-- `_exit`: terminates the process (`Outcome.exited`) on well-formed input;
malformed input is an ordinary error.  `n as i32` is exact on the `Int`
model's claim-relevant range. -/
def _exit (env : Environment) (args : List Value) : Environment × Outcome :=
  match args with
  | [] => (env, .exited 0)
  | [code] =>
      match code with
      | .num n => (env, .exited n)
      | _ => (env, .error (.notANumber code))
  | _ => (env, .error (.arityAtMost 1 args.length))

/-- `_begin`: the final argument, or nil when there is none. -/
def _begin (env : Environment) (args : List Value) : Environment × Outcome :=
  match args.getLast? with
  | none => (env, .ok nilV)
  | some v => (env, .ok v)

/-- The summation loop of `_add`. -/
def addLoop (sum : Int) : List Value → Except Err Int
  | [] => .ok sum
  | .num n :: rest => addLoop (sum + n) rest
  | v :: _ => .error (.notANumber v)

/-- `_add`: sum of 0 and the arguments. -/
def _add (env : Environment) (args : List Value) : Environment × Outcome :=
  match addLoop 0 args with
  | .ok sum => (env, .ok (.num sum))
  | .error e => (env, .error e)

/-- The match in `_is_num`. -/
def isNumV : Value → Bool
  | .num _ => true
  | _ => false

/-- `_is_num`: checks that the single argument is a num. -/
def _is_num (env : Environment) (args : List Value) : Environment × Outcome :=
  match args with
  | [v] => (env, .ok (.bool (isNumV v)))
  | _ => (env, .error (.arityExact 1 args.length))

/-- The match in `_is_bool`. -/
def isBoolV : Value → Bool
  | .bool _ => true
  | _ => false

/-- `_is_bool`: checks that the single argument is a bool. -/
def _is_bool (env : Environment) (args : List Value) : Environment × Outcome :=
  match args with
  | [v] => (env, .ok (.bool (isBoolV v)))
  | _ => (env, .error (.arityExact 1 args.length))

/-- The match in `_is_str`. -/
def isStrV : Value → Bool
  | .str _ => true
  | _ => false

/-- `_is_str`. -/
def _is_str (env : Environment) (args : List Value) : Environment × Outcome :=
  match args with
  | [v] => (env, .ok (.bool (isStrV v)))
  | _ => (env, .error (.arityExact 1 args.length))

/-- The match in `_is_symbol`. -/
def isSymbolV : Value → Bool
  | .symbol _ _ => true
  | _ => false

/-- `_is_symbol`. -/
def _is_symbol (env : Environment) (args : List Value) : Environment × Outcome :=
  match args with
  | [v] => (env, .ok (.bool (isSymbolV v)))
  | _ => (env, .error (.arityExact 1 args.length))

/-- The match in `_is_cons`. -/
def isConsV : Value → Bool
  | .list _ => true
  | _ => false

/-- `_is_cons`. -/
def _is_cons (env : Environment) (args : List Value) : Environment × Outcome :=
  match args with
  | [v] => (env, .ok (.bool (isConsV v)))
  | _ => (env, .error (.arityExact 1 args.length))

/-- The match in `_is_lambda`: true for intrinsics and closures (not for
macro handlers). -/
def isLambdaV : Value → Bool
  | .intrinsic _ => true
  | .func _ _ _ => true
  | _ => false

/-- `_is_lambda`. -/
def _is_lambda (env : Environment) (args : List Value) : Environment × Outcome :=
  match args with
  | [v] => (env, .ok (.bool (isLambdaV v)))
  | _ => (env, .error (.arityExact 1 args.length))

/-- `_list`. -/
def _list (env : Environment) (args : List Value) : Environment × Outcome :=
  (env, .ok (.list args))

/-- `_cons`. -/
def _cons (env : Environment) (args : List Value) : Environment × Outcome :=
  match args with
  | [car, cdr] =>
      match cdr with
      | .list vals => (env, .ok (.list (car :: vals)))
      | _ => (env, .error (.notAListValue car))
  | _ => (env, .error (.arityExact 2 args.length))

/-- `_car`. -/
def _car (env : Environment) (args : List Value) : Environment × Outcome :=
  match args with
  | [l] =>
      match l with
      | .list [] => (env, .error (.custom "Cannot call car on an empty list."))
      | .list (v :: _) => (env, .ok v)
      | _ => (env, .error (.notAListValue l))
  | _ => (env, .error (.arityExact 1 args.length))

/-- `_cdr`. -/
def _cdr (env : Environment) (args : List Value) : Environment × Outcome :=
  match args with
  | [l] =>
      match l with
      | .list [] => (env, .error (.custom "Cannot call cdr on an empty list."))
      | .list (_ :: rest) => (env, .ok (.list rest))
      | _ => (env, .error (.notAListValue l))
  | _ => (env, .error (.arityExact 1 args.length))

/-- `_len`. -/
def _len (env : Environment) (args : List Value) : Environment × Outcome :=
  match args with
  | [l] =>
      match l with
      | .list vals => (env, .ok (.num vals.length))
      | _ => (env, .error (.notAListValue l))
  | _ => (env, .error (.arityExact 1 args.length))

/-- `_nth` (`src/intrinsics/functions.rs` lines 505-525).  An empty list
yields nil for any index; a non-integer index (`num as usize`, cast back
and compared — on the `Int` model this rejects exactly the negatives, as
the saturating float-to-usize cast does) is an ordinary error; but the
final `vals[index]` is an unchecked index, which panics when the index is
past the end of a non-empty list. -/
def _nth (env : Environment) (args : List Value) : Environment × Outcome :=
  match args with
  | [l, idx] =>
      match l, idx with
      | .list vals, .num num =>
          match vals with
          | [] => (env, .ok nilV)
          | _ :: _ =>
              let index := num.toNat
              if (index : Int) ≠ num then
                (env, .error .listIndexNotInteger)
              else
                match vals.get? index with
                | some v => (env, .ok v)
                | none => (env, .panic "index out of bounds: vals[index]")
      | _, _ => (env, .error .contractMismatch)
  | _ => (env, .error (.arityExact 2 args.length))

/-- `_is_eq`: structural equality via `PartialEq for Value`; total (never
an error beyond the arity check). -/
def _is_eq (env : Environment) (args : List Value) : Environment × Outcome :=
  match args with
  | [a, b] => (env, .ok (.bool (valueEq a b)))
  | _ => (env, .error (.arityExact 2 args.length))

/-! ## Special forms (`src/intrinsics/macros.rs`) and the evaluator
(`src/interpreter/mod.rs`).  Recursive evaluation is passed in as an
`EvalFn` parameter; the knot is tied by `eval`, which counts fuel down. -/

/-- The type of the recursive-evaluation callback (`SExpr::eval`). -/
abbrev EvalFn : Type := SExpr → Environment → Environment × Outcome

/-- Rust's `?` on a `Result<Value>`, plus the unwinding of panics and
`process::exit` (and the fuel artifact): anything but `ok` propagates. -/
def bindO (r : Environment × Outcome)
    (f : Environment → Value → Environment × Outcome) :
    Environment × Outcome :=
  match r with
  | (env, .ok v) => f env v
  | other => other

/-- `let res = ...?; env.exit_scope(); Ok(res)` — the scope is exited only
on the `Ok` path; an `Err` has already propagated through the `?` without
the exit (and a panic unwinds past it). -/
def exitOnOk (r : Environment × Outcome) : Environment × Outcome :=
  match r with
  | (env, .ok v) => (env.exitScope, .ok v)
  | other => other

/-- `let res = body.eval(env); env.exit_scope(); res` — the scope is exited
on both the `Ok` and the `Err` path (only a panic/exit unwinds past it). -/
def exitAfterResult (r : Environment × Outcome) : Environment × Outcome :=
  match r with
  | (env, .ok v) => (env.exitScope, .ok v)
  | (env, .error e) => (env.exitScope, .error e)
  | other => other

/-- The left-to-right argument-evaluation loops in `SExpr::eval` (closure
and intrinsic cases): each element is evaluated with `?`-propagation. -/
def evalArgs (evalFn : EvalFn) :
    List SExpr → Environment → Environment × (Outcome ⊕ List Value)
  | [], env => (env, .inr [])
  | e :: rest, env =>
      match evalFn e env with
      | (env', .ok v) =>
          match evalArgs evalFn rest env' with
          | (env'', .inr vs) => (env'', .inr (v :: vs))
          | other => other
      | (env', o) => (env', .inl o)

/-- The positional parameter-binding loops of `eval_func`. -/
def defineParams (env : Environment) :
    List String → List Value → Environment
  | p :: ps, a :: rest => defineParams (env.define p a) ps rest
  | _, _ => env

/-- `eval_func` (`src/interpreter/mod.rs` lines 105-153).  Scope handling
is exactly the source's: `enter_scope` happens first, arity errors
`return Err` without a matching `exit_scope`, and the body is evaluated
with `?` so a failing body also skips the `exit_scope`.  A variadic
closure value with zero parameters (not constructible via `lambda`) would
make the source subtract from a zero `usize` and index `params[-1]`;
the model returns a panic for the latter. -/
def eval_func (evalFn : EvalFn) (func : Value) (args : List Value)
    (env : Environment) : Environment × Outcome :=
  match func with
  | .func params body variadic =>
      let env := env.enterScope
      let paramsLen := params.length
      let argsLen := args.length
      if variadic then
        if paramsLen - 1 > argsLen then
          (env, .error (.arityAtLeast (paramsLen - 1) argsLen))
        else
          match params.getLast? with
          | none => (env, .panic "index out of bounds: params[params_len - 1]")
          | some restParam =>
              let env := defineParams env (params.take (paramsLen - 1)) args
              let variadicArg :=
                if argsLen ≥ paramsLen then args.drop (paramsLen - 1) else []
              let env := env.define restParam (.list variadicArg)
              exitOnOk (evalFn body env)
      else
        if paramsLen ≠ argsLen then
          (env, .error (.arityExact paramsLen argsLen))
        else
          let env := defineParams env params args
          exitOnOk (evalFn body env)
  | _ => (env, .error (.notAFunction func))

/-- `RESERVED_WORDS` (`src/intrinsics/mod.rs`). -/
def RESERVED_WORDS : List String :=
  ["define", "define-struct", "begin", "cond", "else", "if", "let"]

/-- `_define` (`src/intrinsics/macros.rs` lines 17-83). -/
def _define (evalFn : EvalFn) (env : Environment) (exprs : List SExpr) :
    Environment × Outcome :=
  match exprs with
  | _ :: identE :: val :: rest =>
      match identE with
      | .ident s _ =>
          if rest.isEmpty then
            if RESERVED_WORDS.contains s then
              (env, .error (.reservedWord s))
            else
              match evalFn val env with
              | (env', .ok v) => (env'.define s v, .ok nilV)
              | other => other
          else (env, .error (.arityExact 2 (exprs.length - 1)))
      | .list vals =>
          match vals with
          | [] => (env, .error (.custom "Cannot redefine empty list."))
          | fident :: params =>
              let body :=
                if exprs.length > 3 then
                  SExpr.list (SExpr.ident "begin" false :: exprs.drop 2)
                else val
              evalFn
                (SExpr.list [SExpr.ident "define" false, fident,
                  SExpr.list [SExpr.ident "lambda" false,
                    SExpr.list params, body]]) env
      | _ => (env, .error (.notAnIdentifier identE))
  | _ => (env, .error (.arityAtLeast 2 (exprs.length - 1)))

/-- The parameter-validation loop of `_lambda`: every parameter must be an
identifier and only the final one may carry the variadic marker. -/
def paramNamesGo (len : Nat) : List SExpr → Nat → Except Err (List String)
  | [], _ => .ok []
  | .ident s variadic :: rest, i =>
      if variadic && i ≠ len - 1 then
        .error (.custom "Only the final parameter of a function may be variadic.")
      else
        match paramNamesGo len rest (i + 1) with
        | .ok names => .ok (s :: names)
        | .error e => .error e
  | p :: _, _ => .error (.notAnIdentifier p)

/-- The variadic flag of the produced closure: the marker of the final
parameter, `false` for an empty parameter list. -/
def lastVariadic (params : List SExpr) : Bool :=
  match params.getLast? with
  | some (.ident _ v) => v
  | _ => false

/-- `_lambda` (`src/intrinsics/macros.rs` lines 86-121). -/
def _lambda (env : Environment) (exprs : List SExpr) :
    Environment × Outcome :=
  match exprs with
  | [_, .list params, body] =>
      match paramNamesGo params.length params 0 with
      | .error e => (env, .error e)
      | .ok names => (env, .ok (.func names body (lastVariadic params)))
  | [_, params, _] => (env, .error (.notAList params))
  | _ => (env, .error (.arityExact 2 (exprs.length - 1)))

/-- `_if` (`src/intrinsics/macros.rs` lines 127-144). -/
def _if (evalFn : EvalFn) (env : Environment) (exprs : List SExpr) :
    Environment × Outcome :=
  match exprs with
  | [_, c, t, e] =>
      bindO (evalFn c env) (fun env cv =>
        match cv with
        | .bool b => if b then evalFn t env else evalFn e env
        | _ => (env, .error (.notABool c)))
  | _ => (env, .error (.arityExact 3 (exprs.length - 1)))

/-- The clause loop of `_cond`.  Every explicit exit path calls
`exit_scope` first, but a failure of `vals[0].eval(env)?` propagates
through the `?` without the exit (the scope leaks). -/
def condLoop (evalFn : EvalFn) (env : Environment) :
    List SExpr → Environment × Outcome
  | [] => (env.exitScope, .ok nilV)
  | condition :: rest =>
      match condition with
      | .list [c, v] =>
          match evalFn c env with
          | (env', .ok (.bool b)) =>
              if b then evalFn v env'.exitScope
              else condLoop evalFn env' rest
          | (env', .ok other) =>
              (env'.exitScope, .error (.notABoolValue other))
          | other => other
      | .list vals => (env.exitScope, .error (.arityExact 2 vals.length))
      | other => (env.exitScope, .error (.notAList other))

/-- `_cond` (`src/intrinsics/macros.rs` lines 151-186): enters a scope,
binds `else` to true in it, then walks the clauses.  On a truthy test the
scope is exited *before* the clause value is evaluated. -/
def _cond (evalFn : EvalFn) (env : Environment) (exprs : List SExpr) :
    Environment × Outcome :=
  let env := env.enterScope
  let env := env.define "else" (.bool true)
  condLoop evalFn env (exprs.drop 1)

/-- The binding loop of `_let`.  `inl` = all bindings processed; `inr` =
early return.  A malformed pair of the wrong length returns its arity
error *without* `exit_scope` (scope leak), as does a failure of the
binding expression's evaluation (the `?`); the not-an-identifier and
not-a-list branches do exit the scope first. -/
def letLoop (evalFn : EvalFn) (env : Environment) :
    List SExpr → Environment ⊕ (Environment × Outcome)
  | [] => .inl env
  | .list [.ident s _, e] :: rest =>
      match evalFn e env with
      | (env', .ok res) => letLoop evalFn (env'.define s res) rest
      | other => .inr other
  | .list [b0, _] :: _ => .inr (env.exitScope, .error (.notAnIdentifier b0))
  | .list other :: _ => .inr (env, .error (.arityExact 2 other.length))
  | expr :: _ => .inr (env.exitScope, .error (.notAList expr))

/-- `_let` (`src/intrinsics/macros.rs` lines 193-236). -/
def _let (evalFn : EvalFn) (env : Environment) (exprs : List SExpr) :
    Environment × Outcome :=
  if exprs.length - 1 ≠ 2 then
    (env, .error (.arityExact 2 (exprs.length - 1)))
  else
    match exprs with
    | [_, .list bindings, body] =>
        let env := env.enterScope
        match letLoop evalFn env bindings with
        | .inr res => res
        | .inl env' => exitAfterResult (evalFn body env')
    | [_, b0, _] => (env, .error (.notAList b0))
    | _ => (env, .error (.arityExact 2 (exprs.length - 1)))

/-- The field-collection loop of `_define_struct`: all declared fields
must be identifiers. -/
def structFieldsOf : List SExpr → Except Err (List String)
  | [] => .ok []
  | .ident s _ :: rest => (structFieldsOf rest).map (fun fs => s :: fs)
  | v :: _ => .error (.notAnIdentifier v)

/-- The accessor-installation loop of `_define_struct`: one handler per
declared field, bound under `{name}-{field}`. -/
def defineAccessors (name : String) (env : Environment) :
    List String → Environment
  | [] => env
  | field :: rest =>
      defineAccessors name
        (env.defineMacroV (name ++ "-" ++ field) .structAccessor) rest

/-- `_define_struct` (`src/intrinsics/macros.rs` lines 239-375): registers
the fields, then installs predicate, per-field accessors and constructor
as ordinary macro-handler bindings. -/
def _define_struct (env : Environment) (exprs : List SExpr) :
    Environment × Outcome :=
  if exprs.length - 1 ≠ 2 then
    (env, .error (.arityExact 2 (exprs.length - 1)))
  else
    match exprs with
    | [_, structName, structDef] =>
        match structName, structDef with
        | .ident name _, .list vals =>
            if vals.length < 1 then
              (env, .error (.arityExact 1 vals.length))
            else
              match structFieldsOf vals with
              | .error e => (env, .error e)
              | .ok fields =>
                  let env := env.addStruct name fields
                  let env := env.defineMacroV (name ++ "?") .structPred
                  let env := defineAccessors name env fields
                  let env := env.defineMacroV ("make-" ++ name) .structCtor
                  (env, .ok nilV)
        | _, sd => (env, .error (.notAList sd))
    | _ => (env, .error (.arityExact 2 (exprs.length - 1)))

/-- The last index of `'-'` in a character list (`str::rfind`). -/
def rfindHyphen : List Char → Option Nat
  | [] => none
  | c :: rest =>
      match rfindHyphen rest with
      | some i => some (i + 1)
      | none => if c = '-' then some 0 else none

/-- `FieldIndex::index` (`src/interpreter/environment.rs`): position of the
first field with the given name. -/
def fieldIndex : List String → String → Option Nat
  | [], _ => none
  | k :: rest, key =>
      if k = key then some 0 else (fieldIndex rest key).map (fun i => i + 1)

/-- The type-checker handler installed by `_define_struct` under
`{name}?`: recovers the type name by dropping the final `?` from the
identifier it was invoked as, evaluates its argument, and compares type
names.  A non-identifier head or non-struct argument yields `false`. -/
def structPredBody (evalFn : EvalFn) (env : Environment)
    (exprs : List SExpr) : Environment × Outcome :=
  if exprs.length ≠ 2 then
    (env, .error (.arityExact 1 (exprs.length - 1)))
  else
    match exprs with
    | [nameE, valueE] =>
        match nameE with
        | .ident ident _ =>
            let structName := (ident.toList.dropLast).asString
            bindO (evalFn valueE env) (fun env v =>
              match v with
              | .structV n _ => (env, .ok (.bool (structName = n)))
              | _ => (env, .ok (.bool false)))
        | _ => (env, .ok (.bool false))
    | _ => (env, .error (.arityExact 1 (exprs.length - 1)))

/-- The field-accessor handler installed by `_define_struct` under
`{name}-{field}`: splits its own name at the *last* hyphen, evaluates its
argument, and — trusting a comment that says the lookups cannot fail —
`unwrap`s both the registry lookup and the field-index lookup (a panic
when the accessor name parses to an unregistered type name, e.g. for a
field name that itself contains a hyphen), then indexes the instance's
field vector (a panic when the instance has fewer fields than the
registered index). -/
def structAccessorBody (evalFn : EvalFn) (env : Environment)
    (exprs : List SExpr) : Environment × Outcome :=
  match exprs with
  | accessor :: args =>
      if args.length ≠ 1 then
        (env, .error (.arityExact 1 args.length))
      else
        match accessor with
        | .ident acc _ =>
            match rfindHyphen acc.toList with
            | some i =>
                let structName := (acc.toList.take i).asString
                let fieldName := (acc.toList.drop (i + 1)).asString
                bindO (evalFn (args.headD SExpr.nil) env) (fun env sv =>
                  match sv with
                  | .structV _ values =>
                      match env.getStruct structName with
                      | none => (env, .panic "unwrap on None: get_struct")
                      | some structDef =>
                          match fieldIndex structDef fieldName with
                          | none => (env, .panic "unwrap on None: index")
                          | some index =>
                              match values.get? index with
                              | some v => (env, .ok v)
                              | none =>
                                  (env, .panic "index out of bounds: values[index]")
                  | _ => (env, .error (.notAStruct sv)))
            | none => (env, .error (.notAnAccessor acc))
        | _ => (env, .error (.notAnIdentifier accessor))
  | [] => (env, .panic "index out of bounds: exprs[0]")

/-- The constructor handler installed by `_define_struct` under
`make-{name}`: recovers the type name by dropping the `make-` prefix,
`unwrap`s the registry lookup, checks the argument count against the
registered field count exactly, then evaluates the arguments in order. -/
def structCtorBody (evalFn : EvalFn) (env : Environment)
    (exprs : List SExpr) : Environment × Outcome :=
  match exprs with
  | nameE :: params =>
      match nameE with
      | .ident mkName _ =>
          let name := (mkName.toList.drop 5).asString
          match env.getStruct name with
          | none => (env, .panic "unwrap on None: get_struct")
          | some fieldNames =>
              if params.length ≠ fieldNames.length then
                (env, .error (.arityExact fieldNames.length params.length))
              else
                match evalArgs evalFn params env with
                | (env, .inr values) => (env, .ok (.structV name values))
                | (env, .inl o) => (env, o)
      | _ => (env, .error (.notAnIdentifier nameE))
  | [] => (env, .panic "index out of bounds: exprs[0]")

/-- Dispatch on a defunctionalised intrinsic pointer. -/
def intrinsicDispatch (f : IntrinsicId) (env : Environment)
    (args : List Value) : Environment × Outcome :=
  match f with
  | .exitI => _exit env args
  | .beginI => _begin env args
  | .add => _add env args
  | .isNum => _is_num env args
  | .isBool => _is_bool env args
  | .isStr => _is_str env args
  | .isSymbol => _is_symbol env args
  | .isCons => _is_cons env args
  | .isLambda => _is_lambda env args
  | .listI => _list env args
  | .cons => _cons env args
  | .car => _car env args
  | .cdr => _cdr env args
  | .lenI => _len env args
  | .isEq => _is_eq env args
  | .nth => _nth env args

/-- Dispatch on a defunctionalised macro-handler pointer. -/
def macroDispatch (evalFn : EvalFn) (f : MacroId) (env : Environment)
    (exprs : List SExpr) : Environment × Outcome :=
  match f with
  | .defineM => _define evalFn env exprs
  | .lambdaM => _lambda env exprs
  | .ifM => _if evalFn env exprs
  | .condM => _cond evalFn env exprs
  | .letM => _let evalFn env exprs
  | .defineStructM => _define_struct env exprs
  | .structPred => structPredBody evalFn env exprs
  | .structAccessor => structAccessorBody evalFn env exprs
  | .structCtor => structCtorBody evalFn env exprs

/-- `SUPER` / `SUPER_LEN` (`src/interpreter/mod.rs`). -/
def SUPER : List Char := "#super:".toList

/-- `SUPER_LEN`. -/
def SUPER_LEN : Nat := 7

/-- Whether the pattern is an initial segment of the text. -/
def leadMatch : List Char → List Char → Bool
  | [], _ => true
  | _ :: _, [] => false
  | p :: ps, c :: cs => p == c && leadMatch ps cs

/-- `str::find(pattern)` as a containment test (the source only asks
whether the result `is_some`). -/
def hasSub (pat : List Char) : List Char → Bool
  | [] => leadMatch pat []
  | c :: rest => leadMatch pat (c :: rest) || hasSub pat rest

/-- One unfolding of `SExpr::eval` (`src/interpreter/mod.rs` lines 25-101),
with the recursive calls abstracted as `evalFn`. -/
def evalStep (evalFn : EvalFn) (e : SExpr) (env : Environment) :
    Environment × Outcome :=
  match e with
  | .num n => (env, .ok (.num n))
  | .bool b => (env, .ok (.bool b))
  | .str s => (env, .ok (.str s))
  | .ident s _ =>
      let hasSuper := hasSub SUPER s.toList
      let ident := if hasSuper then (s.toList.drop SUPER_LEN).asString else s
      match (if hasSuper then env.getSuper ident else env.get ident) with
      | some v => (env, .ok v)
      | none => (env, .error (.unbound ident))
  | .list [] => (env, .ok nilV)
  | .list (head :: rest) =>
      bindO (evalFn head env) (fun env func =>
        match func with
        | .func _ _ _ =>
            match evalArgs evalFn rest env with
            | (env, .inr args) => eval_func evalFn func args env
            | (env, .inl o) => (env, o)
        | .intrinsic f =>
            match evalArgs evalFn rest env with
            | (env, .inr args) => intrinsicDispatch f env args
            | (env, .inl o) => (env, o)
        | .macroV f => macroDispatch evalFn f env (head :: rest)
        | _ => (env, .error (.notAFunction func)))
  | .quote q => (env, .ok (sexprToValue q))
  | .nil => (env, .ok nilV)

/-- Fuel-bounded `SExpr::eval`: `Nat.rec` keeps the definition reducible by
the kernel, so concrete runs can be settled by `rfl`. -/
def eval (fuel : Nat) : EvalFn :=
  Nat.rec (motive := fun _ => EvalFn)
    (fun _ env => (env, .fuelOut))
    (fun _ evalFn => evalStep evalFn)
    fuel

/-- `load_checks` (`src/intrinsics/functions.rs` lines 403-410), verbatim:
the source binds `"bool?"` to `_is_num`. -/
def load_checks (env : Environment) : Environment :=
  let env := env.defineIntrinsic "num?" .isNum
  let env := env.defineIntrinsic "bool?" .isNum
  let env := env.defineIntrinsic "str?" .isStr
  let env := env.defineIntrinsic "symbol?" .isSymbol
  let env := env.defineIntrinsic "cons?" .isCons
  env.defineIntrinsic "lambda?" .isLambda

/-- The claim-relevant slice of `init_intrinsics`
(`src/intrinsics/mod.rs`), in source order; bindings no claim consults
(floating-point constants, arithmetic beyond `+`, I/O, trig) are omitted
from the model. -/
def init_intrinsics (env : Environment) : Environment :=
  let env := env.define "empty" nilV
  let env := env.defineMacroV "define" .defineM
  let env := env.defineMacroV "lambda" .lambdaM
  let env := env.defineMacroV "if" .ifM
  let env := env.defineMacroV "cond" .condM
  let env := env.defineMacroV "let" .letM
  let env := env.defineMacroV "define-struct" .defineStructM
  let env := env.defineIntrinsic "+" .add
  let env := load_checks env
  let env := env.defineIntrinsic "cons" .cons
  let env := env.defineIntrinsic "car" .car
  let env := env.defineIntrinsic "cdr" .cdr
  let env := env.defineIntrinsic "len" .lenI
  let env := env.defineIntrinsic "nth" .nth
  let env := env.defineIntrinsic "eq?" .isEq
  let env := env.defineIntrinsic "exit" .exitI
  env.defineIntrinsic "begin" .beginI

/-- The environment the REPL starts from: `Environment::default()` with the
standard library loaded. -/
def initialEnv : Environment := init_intrinsics Environment.default

/-! ## Specification-side helper predicates (used only to state claims). -/

/-- Whether two values carry the same variant tag. -/
def sameVariant : Value → Value → Bool
  | .num _, .num _ => true
  | .bool _, .bool _ => true
  | .str _, .str _ => true
  | .symbol _ _, .symbol _ _ => true
  | .list _, .list _ => true
  | .func _ _ _, .func _ _ _ => true
  | .intrinsic _, .intrinsic _ => true
  | .macroV _, .macroV _ => true
  | .structV _ _, .structV _ _ => true
  | _, _ => false

/-- Callable values: closures, intrinsics, and macro handlers. -/
def isCallable : Value → Bool
  | .func _ _ _ => true
  | .intrinsic _ => true
  | .macroV _ => true
  | _ => false

mutual

/-- Whether a callable occurs anywhere inside a value (exactly the values
`Into<SExpr>` cannot convert). -/
def hasCallable : Value → Bool
  | .func _ _ _ => true
  | .intrinsic _ => true
  | .macroV _ => true
  | .list vals => hasCallableL vals
  | .structV _ fields => hasCallableL fields
  | _ => false

def hasCallableL : List Value → Bool
  | [] => false
  | v :: rest => hasCallable v || hasCallableL rest

end

/-! ## Lemmas about scopes and lookup. -/

theorem scopeGet_insert_self (sc : Scope) (k : String) (v : Value) :
    scopeGet (scopeInsert sc k v) k = some v := by
  simp [scopeInsert, scopeGet]

theorem scopeGet_insert_other (sc : Scope) (k k' : String) (v : Value)
    (h : k' ≠ k) : scopeGet (scopeInsert sc k' v) k = scopeGet sc k := by
  simp [scopeInsert, scopeGet, h]

theorem get_def (env : Environment) (k : String) :
    env.get k = env.stack.reverse.findSome? (fun sc => scopeGet sc k) := by
  unfold Environment.get
  cases h : env.stack.reverse.findSome? (fun sc => scopeGet sc k) <;> simp

theorem define_stack (env : Environment) (k : String) (v : Value)
    (top : Scope) (h : env.stack.getLast? = some top) :
    (env.define k v).stack = env.stack.dropLast ++ [scopeInsert top k v] := by
  unfold Environment.define
  rw [h]

theorem stack_eq_dropLast_concat (env : Environment) (top : Scope)
    (h : env.stack.getLast? = some top) :
    env.stack = env.stack.dropLast ++ [top] :=
  (List.dropLast_append_getLast? top h).symm

theorem get_define_self (env : Environment) (k : String) (v : Value)
    (h : env.stack ≠ []) : (env.define k v).get k = some v := by
  obtain ⟨top, htop⟩ : ∃ top, env.stack.getLast? = some top := by
    cases hs : env.stack.getLast? with
    | some t => exact ⟨t, rfl⟩
    | none => exact absurd (List.getLast?_eq_none_iff.mp hs) h
  rw [get_def, define_stack env k v top htop, List.reverse_append]
  simp [List.findSome?_cons, scopeGet_insert_self]

theorem get_define_other (env : Environment) (k k' : String) (v : Value)
    (h : k' ≠ k) : (env.define k' v).get k = env.get k := by
  cases hs : env.stack.getLast? with
  | none =>
      unfold Environment.define
      rw [hs]
  | some top =>
      rw [get_def, get_def, define_stack env k' v top hs]
      conv_rhs => rw [stack_eq_dropLast_concat env top hs]
      rw [List.reverse_append, List.reverse_append]
      simp [List.findSome?_cons, scopeGet_insert_other _ _ _ _ h]

theorem define_stack_ne_nil (env : Environment) (k : String) (v : Value) :
    env.stack ≠ [] → (env.define k v).stack ≠ [] := by
  intro h
  obtain ⟨top, htop⟩ : ∃ top, env.stack.getLast? = some top := by
    cases hs : env.stack.getLast? with
    | some t => exact ⟨t, rfl⟩
    | none => exact absurd (List.getLast?_eq_none_iff.mp hs) h
  rw [define_stack env k v top htop]
  simp

theorem enterScope_stack_ne_nil (env : Environment) :
    env.enterScope.stack ≠ [] := by
  simp [Environment.enterScope]

theorem defineParams_untouched (ps : List String) (vs : List Value)
    (env : Environment) (k : String) (h : k ∉ ps) :
    (defineParams env ps vs).get k = env.get k := by
  induction ps generalizing env vs with
  | nil => cases vs <;> rfl
  | cons p ps ih =>
      cases vs with
      | nil => rfl
      | cons a vs =>
          rw [List.mem_cons, not_or] at h
          show (defineParams (env.define p a) ps vs).get k = env.get k
          rw [ih vs (env.define p a) h.2]
          exact get_define_other env k p a (Ne.symm h.1)

theorem defineParams_stack_ne_nil (ps : List String) (vs : List Value)
    (env : Environment) (h : env.stack ≠ []) :
    (defineParams env ps vs).stack ≠ [] := by
  induction ps generalizing env vs with
  | nil => cases vs <;> exact h
  | cons p ps ih =>
      cases vs with
      | nil => exact h
      | cons a vs => exact ih vs (env.define p a) (define_stack_ne_nil env p a h)

theorem defineParams_get (ps : List String) (vs : List Value)
    (env : Environment) (hnd : ps.Nodup) (hlen : ps.length ≤ vs.length)
    (hne : env.stack ≠ []) (i : Nat) (hi : i < ps.length) :
    (defineParams env ps vs).get (ps.get ⟨i, hi⟩) = vs.get? i := by
  induction ps generalizing env vs i with
  | nil => exact absurd hi (by simp)
  | cons p ps ih =>
      cases vs with
      | nil => simp at hlen
      | cons a vs =>
          cases i with
          | zero =>
              have hp : p ∉ ps := (List.nodup_cons.mp hnd).1
              show (defineParams (env.define p a) ps vs).get p = some a
              rw [defineParams_untouched ps vs _ p hp]
              exact get_define_self env p a hne
          | succ j =>
              have hnd' : ps.Nodup := (List.nodup_cons.mp hnd).2
              have hlen' : ps.length ≤ vs.length := by
                simpa using hlen
              exact ih vs (env.define p a) hnd' hlen'
                (define_stack_ne_nil env p a hne) j (by simpa using hi)

theorem get_innermost_first (env : Environment) (k : String)
    (s : List Scope) (sc : Scope) (v : Value)
    (hstack : env.stack = s ++ [sc]) (hv : scopeGet sc k = some v) :
    env.get k = some v := by
  rw [get_def, hstack, List.reverse_append]
  simp [List.findSome?_cons, hv]

theorem getSuper_skips_innermost (env : Environment) (k : String)
    (s : List Scope) (sc2 sc1 : Scope) (v2 : Value)
    (hstack : env.stack = s ++ [sc2, sc1]) (hv : scopeGet sc2 k = some v2) :
    env.getSuper k = some v2 := by
  have hlen : env.stack.length > 1 := by
    rw [hstack]
    simp
  have hdl : env.stack.dropLast = s ++ [sc2] := by
    have he : env.stack = (s ++ [sc2]) ++ [sc1] := by
      rw [hstack]
      simp
    rw [he, List.dropLast_concat]
  unfold Environment.getSuper
  rw [if_pos hlen, hdl, List.reverse_append]
  simp [List.findSome?_cons, hv]

theorem getSuper_single_scope (env : Environment) (k : String) (sc : Scope)
    (hstack : env.stack = [sc]) : env.getSuper k = scopeGet env.base k := by
  unfold Environment.getSuper
  rw [hstack]
  simp

theorem get_skip_missing (env : Environment) (k : String) (s : List Scope)
    (sc : Scope) (hstack : env.stack = s ++ [sc])
    (hmiss : scopeGet sc k = none) :
    env.get k = Environment.get { env with stack := s } k := by
  rw [get_def, get_def, hstack, List.reverse_append]
  simp [List.findSome?_cons, hmiss]

theorem getSuper_eq_get_dropLast (env : Environment) (k : String)
    (hlen : env.stack.length > 1) :
    env.getSuper k
      = Environment.get { env with stack := env.stack.dropLast } k := by
  unfold Environment.getSuper
  rw [if_pos hlen, get_def]
  show (match env.stack.dropLast.reverse.findSome? (fun sc => scopeGet sc k) with
        | some v => some v
        | none => none)
      = env.stack.dropLast.reverse.findSome? (fun sc => scopeGet sc k)
  cases env.stack.dropLast.reverse.findSome? (fun sc => scopeGet sc k) <;> rfl

/-! ## Claim C3 -/

/-- C3 counterexample: the claim says `Environment::get` searches the
scopes down to *and including* the distinguished base scope; but at the
concrete state whose base scope binds `x` and whose (single, empty) stack
scope does not, `get` returns `none` even though the base holds `x` — the
loop in the source never consults `base`. -/
theorem get_searches_base_counterexample :
    (Environment.get
        { base := [("x", Value.num 1)], stack := [([] : Scope)],
          structs := [] } "x" = none)
  ∧ (scopeGet
        ({ base := [("x", Value.num 1)], stack := [([] : Scope)],
           structs := [] } : Environment).base "x" = some (Value.num 1)) :=
  ⟨rfl, rfl⟩

/-- C3 (amended): `Environment::get` searches only the stacked scopes from
the innermost outward and never consults the base scope; `get_super`
performs that search skipping exactly the innermost scope, and consults
the base scope (alone) only when the stack holds a single scope; with
nested scopes each binding `x`, resolving the super-prefixed identifier
for `x` from the innermost scope yields the value bound in the
second-innermost scope. -/
theorem scope_lookup_amended :
    (∀ (env : Environment) (b : Scope) (k : String),
      Environment.get { env with base := b } k = env.get k)
  ∧ (∀ (env : Environment) (k : String) (s : List Scope) (sc : Scope)
        (v : Value), env.stack = s ++ [sc] → scopeGet sc k = some v →
      env.get k = some v)
  ∧ (∀ (env : Environment) (k : String) (s : List Scope) (sc : Scope),
      env.stack = s ++ [sc] → scopeGet sc k = none →
      env.get k = Environment.get { env with stack := s } k)
  ∧ (∀ (env : Environment) (k : String), env.stack.length > 1 →
      env.getSuper k
        = Environment.get { env with stack := env.stack.dropLast } k)
  ∧ (∀ (env : Environment) (k : String) (sc : Scope), env.stack = [sc] →
      env.getSuper k = scopeGet env.base k)
  ∧ (∀ (env : Environment) (k : String) (s : List Scope) (sc2 sc1 : Scope)
        (v2 : Value), env.stack = s ++ [sc2, sc1] →
      scopeGet sc2 k = some v2 → env.getSuper k = some v2)
  ∧ (∀ (fuel : Nat) (env : Environment) (x : String) (s : List Scope)
        (sc2 sc1 : Scope) (v2 : Value), env.stack = s ++ [sc2, sc1] →
      scopeGet sc2 x = some v2 →
      (eval (fuel + 1) (SExpr.ident ("#super:" ++ x) false) env).2
        = .ok v2) := by
  refine ⟨fun env b k => rfl, get_innermost_first, get_skip_missing,
    getSuper_eq_get_dropLast, getSuper_single_scope,
    getSuper_skips_innermost, ?_⟩
  intro fuel env x s sc2 sc1 v2 hstack hv
  have hsup : env.getSuper x = some v2 :=
    getSuper_skips_innermost env x s sc2 sc1 v2 hstack hv
  have hred : eval (fuel + 1) (SExpr.ident ("#super:" ++ x) false) env
      = (match env.getSuper x with
         | some v => (env, .ok v)
         | none => (env, .error (.unbound x))) := rfl
  rw [hred, hsup]

/-- Witness for `scope_lookup_amended` at concrete inputs: a three-scope
stack binding `x` to 3 (outermost), 2, and 1 (innermost). -/
theorem scope_lookup_amended_witness :
    (Environment.get
        { base := [("y", Value.num 9)],
          stack := [[("x", Value.num 1)]], structs := [] } "x"
      = Environment.get
        { base := [], stack := [[("x", Value.num 1)]], structs := [] } "x")
  ∧ (Environment.get
        { base := [],
          stack := [[("x", Value.num 3)], [("x", Value.num 2)],
            [("x", Value.num 1)]], structs := [] } "x"
      = some (Value.num 1))
  ∧ (Environment.getSuper
        { base := [],
          stack := [[("x", Value.num 3)], [("x", Value.num 2)],
            [("x", Value.num 1)]], structs := [] } "x"
      = some (Value.num 2))
  ∧ (Environment.getSuper
        { base := [("x", Value.num 7)], stack := [([] : Scope)],
          structs := [] } "x" = some (Value.num 7))
  ∧ ((eval 2 (SExpr.ident ("#super:" ++ "x") false)
        { base := [],
          stack := [[("x", Value.num 3)], [("x", Value.num 2)],
            [("x", Value.num 1)]], structs := [] }).2
      = .ok (Value.num 2)) := by
  refine ⟨scope_lookup_amended.1
    ⟨[], [[("x", Value.num 1)]], []⟩ [("y", Value.num 9)] "x", ?_, ?_, ?_, ?_⟩
  · exact scope_lookup_amended.2.1 _ "x"
      [[("x", Value.num 3)], [("x", Value.num 2)]] [("x", Value.num 1)]
      (Value.num 1) rfl rfl
  · exact scope_lookup_amended.2.2.2.2.2.1 _ "x"
      [[("x", Value.num 3)]] [("x", Value.num 2)] [("x", Value.num 1)]
      (Value.num 2) rfl rfl
  · have h := scope_lookup_amended.2.2.2.2.1
      { base := [("x", Value.num 7)], stack := [([] : Scope)],
        structs := [] } "x" ([] : Scope) rfl
    simpa using h
  · exact scope_lookup_amended.2.2.2.2.2.2 1 _ "x"
      [[("x", Value.num 3)]] [("x", Value.num 2)] [("x", Value.num 1)]
      (Value.num 2) rfl rfl

/-! ## Claim C1 -/

/-- C1 is violated by the source: the claim (and the spec) require the
scope entered by a closure application, `cond`, or `let` to be exited
exactly once even on error paths; but `eval_func` returns its arity error
and propagates a failing body's error with the entered scope still on the
stack, `_cond` propagates a failing test expression's error without the
exit, and `_let` does the same for a malformed binding pair and for a
failing binding expression.  Each conjunct evaluates one such path: the
operation returns an error, yet the stack is one scope deeper than
before the call. -/
theorem scope_depth_not_restored_on_error_paths :
    ((eval_func (eval 10)
        (Value.func ["x"] (SExpr.ident "x" false) false) [] initialEnv).2
      = .error (.arityExact 1 0)
    ∧ (eval_func (eval 10)
        (Value.func ["x"] (SExpr.ident "x" false) false) [] initialEnv).1.stack.length
      = initialEnv.stack.length + 1)
  ∧ ((eval_func (eval 10)
        (Value.func [] (SExpr.ident "boom" false) false) [] initialEnv).2
      = .error (.unbound "boom")
    ∧ (eval_func (eval 10)
        (Value.func [] (SExpr.ident "boom" false) false) [] initialEnv).1.stack.length
      = initialEnv.stack.length + 1)
  ∧ ((eval 20 (SExpr.list [.ident "cond" false,
        .list [.ident "boom" false, .num 1]]) initialEnv).2
      = .error (.unbound "boom")
    ∧ (eval 20 (SExpr.list [.ident "cond" false,
        .list [.ident "boom" false, .num 1]]) initialEnv).1.stack.length
      = initialEnv.stack.length + 1)
  ∧ ((eval 20 (SExpr.list [.ident "let" false,
        .list [.list [.ident "a" false, .ident "boom" false]],
        .ident "a" false]) initialEnv).2
      = .error (.unbound "boom")
    ∧ (eval 20 (SExpr.list [.ident "let" false,
        .list [.list [.ident "a" false, .ident "boom" false]],
        .ident "a" false]) initialEnv).1.stack.length
      = initialEnv.stack.length + 1)
  ∧ ((eval 20 (SExpr.list [.ident "let" false,
        .list [.list [.ident "a" false]],
        .ident "a" false]) initialEnv).2
      = .error (.arityExact 2 1)
    ∧ (eval 20 (SExpr.list [.ident "let" false,
        .list [.list [.ident "a" false]],
        .ident "a" false]) initialEnv).1.stack.length
      = initialEnv.stack.length + 1) :=
  ⟨⟨rfl, rfl⟩, ⟨rfl, rfl⟩, ⟨rfl, rfl⟩, ⟨rfl, rfl⟩, ⟨rfl, rfl⟩⟩

/-! ## Claim C2 -/

/-- C2 is violated by the source: the claim says every malformed input to
the built-ins and struct-generated handlers is reported as an ordinary
error, never a process abort.  But `nth` applied to a non-empty list with
an index past its end reaches the unchecked `vals[index]` and panics
(shown both for the bare intrinsic and through a full evaluation), and
the accessor generated for a field whose name contains a hyphen
(`(define-struct P (a-b))`, accessor `P-a-b`) splits its own name at the
last hyphen, looks up the unregistered type name `P-a`, and panics on the
`unwrap`. -/
theorem malformed_input_panics_not_error :
    ((_nth initialEnv
        [Value.list [Value.num 1, Value.num 2], Value.num 5]).2
      = .panic "index out of bounds: vals[index]")
  ∧ ((eval 20 (SExpr.list [.ident "nth" false,
        .quote (.list [.num 1, .num 2]), .num 5]) initialEnv).2
      = .panic "index out of bounds: vals[index]")
  ∧ ((eval 20 (SExpr.list [.ident "P-a-b" false,
        .list [.ident "make-P" false, .num 1]])
      (eval 20 (SExpr.list [.ident "define-struct" false, .ident "P" false,
        .list [.ident "a-b" false]]) initialEnv).1).2
      = .panic "unwrap on None: get_struct") :=
  ⟨rfl, rfl, rfl⟩

/-! ## Claims C4 and C5 -/

theorem eval_func_nonvariadic (evalFn : EvalFn) (params : List String)
    (body : SExpr) (args : List Value) (env : Environment) :
    eval_func evalFn (.func params body false) args env
      = if params.length ≠ args.length
        then (env.enterScope, .error (.arityExact params.length args.length))
        else exitOnOk (evalFn body (defineParams env.enterScope params args)) :=
  rfl

theorem eval_func_variadic (evalFn : EvalFn) (params : List String)
    (body : SExpr) (args : List Value) (env : Environment) :
    eval_func evalFn (.func params body true) args env
      = if params.length - 1 > args.length
        then (env.enterScope,
          .error (.arityAtLeast (params.length - 1) args.length))
        else match params.getLast? with
          | none =>
              (env.enterScope, .panic "index out of bounds: params[params_len - 1]")
          | some restParam =>
              exitOnOk (evalFn body
                ((defineParams env.enterScope
                    (params.take (params.length - 1)) args).define
                  restParam
                  (.list (if args.length ≥ params.length
                          then args.drop (params.length - 1) else [])))) :=
  rfl

/-- C4: applying a non-variadic closure with `n` parameters to `k`
arguments fails with an exact-arity error carrying expected = n and
found = k whenever k ≠ n; when k = n the application enters a fresh
scope, binds the parameters positionally, and evaluates the body in that
scope — and for distinct parameter names, looking each parameter up in
the environment the body sees yields the argument in the same position. -/
theorem nonvariadic_application (evalFn : EvalFn) (params : List String)
    (body : SExpr) (args : List Value) (env : Environment) :
    (args.length ≠ params.length →
      (eval_func evalFn (.func params body false) args env).2
        = .error (.arityExact params.length args.length))
  ∧ (args.length = params.length →
      eval_func evalFn (.func params body false) args env
        = exitOnOk (evalFn body (defineParams env.enterScope params args)))
  ∧ (args.length = params.length → params.Nodup →
      ∀ i (hi : i < params.length),
        (defineParams env.enterScope params args).get (params.get ⟨i, hi⟩)
          = args.get? i) := by
  refine ⟨?_, ?_, ?_⟩
  · intro h
    rw [eval_func_nonvariadic, if_pos (Ne.symm h)]
  · intro h
    rw [eval_func_nonvariadic, if_neg (by omega)]
  · intro h hnd i hi
    exact defineParams_get params args env.enterScope hnd (by omega)
      (enterScope_stack_ne_nil env) i hi

/-- Witness for `nonvariadic_application`: a two-parameter closure applied
to one argument fails with expected = 2, found = 1; applied to two
arguments, it runs its body in the scope binding the parameters, and the
lookup of `b` yields the second argument. -/
theorem nonvariadic_application_witness :
    ((eval_func (eval 5) (.func ["a", "b"] SExpr.nil false)
        [Value.num 7] initialEnv).2 = .error (.arityExact 2 1))
  ∧ (eval_func (eval 5) (.func ["a", "b"] (SExpr.ident "a" false) false)
        [Value.num 1, Value.num 2] initialEnv
      = exitOnOk (eval 5 (SExpr.ident "a" false)
          (defineParams initialEnv.enterScope ["a", "b"]
            [Value.num 1, Value.num 2])))
  ∧ ((defineParams initialEnv.enterScope ["a", "b"]
        [Value.num 1, Value.num 2]).get "b" = some (Value.num 2)) := by
  refine ⟨(nonvariadic_application (eval 5) ["a", "b"] SExpr.nil
      [Value.num 7] initialEnv).1 (by decide),
    (nonvariadic_application (eval 5) ["a", "b"] (SExpr.ident "a" false)
      [Value.num 1, Value.num 2] initialEnv).2.1 (by decide), ?_⟩
  have h := (nonvariadic_application (eval 5) ["a", "b"]
    (SExpr.ident "a" false) [Value.num 1, Value.num 2] initialEnv).2.2
    (by decide) (by decide) 1 (by decide)
  simpa using h

/-- C5: applying a variadic closure with `n ≥ 1` parameters to `k`
arguments fails with an at-least-arity error carrying expected = n − 1
and found = k whenever k < n − 1; otherwise the leading n − 1 parameters
are bound positionally, the final parameter is bound to a list value
holding the remaining k − (n − 1) arguments in order (empty when
k = n − 1), and the body is evaluated in that scope. -/
theorem variadic_application (evalFn : EvalFn) (params : List String)
    (body : SExpr) (args : List Value) (env : Environment)
    (hp : 1 ≤ params.length) :
    (args.length < params.length - 1 →
      (eval_func evalFn (.func params body true) args env).2
        = .error (.arityAtLeast (params.length - 1) args.length))
  ∧ (∀ restParam, params.getLast? = some restParam →
      params.length - 1 ≤ args.length →
      eval_func evalFn (.func params body true) args env
        = exitOnOk (evalFn body
            ((defineParams env.enterScope
                (params.take (params.length - 1)) args).define
              restParam (.list (args.drop (params.length - 1))))))
  ∧ (∀ restParam, params.getLast? = some restParam →
      params.length - 1 ≤ args.length →
      ((defineParams env.enterScope
          (params.take (params.length - 1)) args).define
        restParam (.list (args.drop (params.length - 1)))).get restParam
        = some (.list (args.drop (params.length - 1))))
  ∧ (params.Nodup → params.length - 1 ≤ args.length →
      ∀ restParam, params.getLast? = some restParam →
      ∀ i (hi : i < params.length - 1),
        ((defineParams env.enterScope
            (params.take (params.length - 1)) args).define
          restParam (.list (args.drop (params.length - 1)))).get
            (params.get ⟨i, by omega⟩)
          = args.get? i) := by
  have hne : params ≠ [] := by
    intro h
    rw [h] at hp
    simp at hp
  refine ⟨?_, ?_, ?_, ?_⟩
  · intro h
    rw [eval_func_variadic, if_pos (by omega)]
  · intro restParam hlast hlen
    rw [eval_func_variadic, if_neg (by omega), hlast]
    have harg : (if args.length ≥ params.length
        then args.drop (params.length - 1) else [])
        = args.drop (params.length - 1) := by
      by_cases hc : args.length ≥ params.length
      · rw [if_pos hc]
      · rw [if_neg hc]
        exact (List.drop_eq_nil_of_le (by omega)).symm
    rw [harg]
  · intro restParam hlast hlen
    exact get_define_self _ restParam _
      (defineParams_stack_ne_nil _ args env.enterScope
        (enterScope_stack_ne_nil env))
  · intro hnd hlen restParam hlast i hi
    have hrp : restParam = params.getLast hne := by
      have h1 := List.getLast?_eq_getLast params hne
      rw [hlast] at h1
      exact (Option.some_injective _ h1)
    have hrpget : restParam = params.get ⟨params.length - 1, by omega⟩ := by
      rw [hrp, List.getLast_eq_getElem]
      simp [List.get_eq_getElem]
    have hdiff : restParam ≠ params.get ⟨i, by omega⟩ := by
      rw [hrpget]
      intro contra
      have := (hnd.get_inj_iff).mp contra
      have : params.length - 1 = i := congrArg Fin.val this
      omega
    rw [get_define_other _ _ restParam _ hdiff]
    have hnd_tk : (params.take (params.length - 1)).Nodup :=
      (List.take_sublist _ params).nodup hnd
    have hi_tk : i < (params.take (params.length - 1)).length := by
      rw [List.length_take]
      omega
    have h := defineParams_get (params.take (params.length - 1)) args
      env.enterScope hnd_tk (by rw [List.length_take]; omega)
      (enterScope_stack_ne_nil env) i hi_tk
    have hgt : (params.take (params.length - 1)).get ⟨i, hi_tk⟩
        = params.get ⟨i, by omega⟩ := by
      simp [List.get_eq_getElem, List.getElem_take]
    rw [hgt] at h
    exact h

/-- Witness for `variadic_application`: a closure with parameters
`(a b rest...)` applied to one argument fails with expected = 2; applied
to `(1 2 3 4)` it binds `a = 1`, `b = 2`, `rest = (3 4)`; applied to
`(1 2)` it binds `rest = ()`. -/
theorem variadic_application_witness :
    ((eval_func (eval 5) (.func ["a", "b", "rest"] SExpr.nil true)
        [Value.num 1] initialEnv).2 = .error (.arityAtLeast 2 1))
  ∧ (((defineParams initialEnv.enterScope ["a", "b"]
        [Value.num 1, Value.num 2, Value.num 3, Value.num 4]).define
        "rest" (.list [Value.num 3, Value.num 4])).get "rest"
      = some (.list [Value.num 3, Value.num 4]))
  ∧ (((defineParams initialEnv.enterScope ["a", "b"]
        [Value.num 1, Value.num 2, Value.num 3, Value.num 4]).define
        "rest" (.list [Value.num 3, Value.num 4])).get "a"
      = some (Value.num 1))
  ∧ (((defineParams initialEnv.enterScope ["a", "b"]
        [Value.num 1, Value.num 2]).define "rest" (.list [])).get "rest"
      = some (.list [])) := by
  refine ⟨(variadic_application (eval 5) ["a", "b", "rest"] SExpr.nil
      [Value.num 1] initialEnv (by decide)).1 (by decide), ?_, ?_, ?_⟩
  · have h := (variadic_application (eval 5) ["a", "b", "rest"] SExpr.nil
      [Value.num 1, Value.num 2, Value.num 3, Value.num 4] initialEnv
      (by decide)).2.2.1 "rest" rfl (by decide)
    simpa using h
  · have h := (variadic_application (eval 5) ["a", "b", "rest"] SExpr.nil
      [Value.num 1, Value.num 2, Value.num 3, Value.num 4] initialEnv
      (by decide)).2.2.2 (by decide) (by decide) "rest" rfl 0 (by decide)
    simpa using h
  · have h := (variadic_application (eval 5) ["a", "b", "rest"] SExpr.nil
      [Value.num 1, Value.num 2] initialEnv (by decide)).2.2.1 "rest" rfl
      (by decide)
    simpa using h

/-! ## Claim C6 -/

theorem valueListEq_length (xs ys : List Value)
    (h : valueListEq xs ys = true) : xs.length = ys.length := by
  induction xs generalizing ys with
  | nil => cases ys with
    | nil => rfl
    | cons y ys => exact Bool.noConfusion h
  | cons x xs ih =>
      cases ys with
      | nil => exact Bool.noConfusion h
      | cons y ys =>
          have h' := (Bool.and_eq_true _ _).mp h
          simpa using ih ys h'.2

theorem valueListEq_iff (xs ys : List Value) :
    valueListEq xs ys = true ↔
      (xs.length = ys.length ∧
        ∀ i (h1 : i < xs.length) (h2 : i < ys.length),
          valueEq (xs.get ⟨i, h1⟩) (ys.get ⟨i, h2⟩) = true) := by
  induction xs generalizing ys with
  | nil =>
      cases ys with
      | nil => simp [valueListEq]
      | cons y ys => simp [valueListEq]
  | cons x xs ih =>
      cases ys with
      | nil => simp [valueListEq]
      | cons y ys =>
          rw [show valueListEq (x :: xs) (y :: ys)
              = (valueEq x y && valueListEq xs ys) from rfl,
            Bool.and_eq_true, ih]
          constructor
          · rintro ⟨hx, hlen, hall⟩
            refine ⟨by simp [hlen], ?_⟩
            intro i h1 h2
            cases i with
            | zero => exact hx
            | succ j => exact hall j (by simpa using h1) (by simpa using h2)
          · rintro ⟨hlen, hall⟩
            refine ⟨hall 0 (by simp) (by simp), by simpa using hlen, ?_⟩
            intro j h1 h2
            exact hall (j + 1) (by simpa using h1) (by simpa using h2)

theorem valueEq_list_eq (xs ys : List Value) :
    valueEq (.list xs) (.list ys) = valueListEq xs ys := by
  show (if xs.length == ys.length then valueListEq xs ys else false)
      = valueListEq xs ys
  by_cases h : xs.length = ys.length
  · simp [h]
  · have hf : valueListEq xs ys = false := by
      cases hq : valueListEq xs ys
      · rfl
      · exact absurd (valueListEq_length xs ys hq) h
    simp [h, hf]

/-- C6: value equality (used by `eq?`) is structural and
variant-sensitive — equal values have the same variant; lists compare
equal exactly when they have equal length and element-wise equal members;
struct instances exactly when they have the same type name and
element-wise equal fields in order; and every closure, intrinsic, or
macro-handler value compares unequal to everything (itself included),
returning `false` rather than failing — while `eq?` itself reports the
comparison as an ordinary boolean. -/
theorem value_equality_spec :
    (∀ a b : Value, valueEq a b = true → sameVariant a b = true)
  ∧ (∀ xs ys : List Value,
      valueEq (.list xs) (.list ys) = true ↔
        (xs.length = ys.length ∧
          ∀ i (h1 : i < xs.length) (h2 : i < ys.length),
            valueEq (xs.get ⟨i, h1⟩) (ys.get ⟨i, h2⟩) = true))
  ∧ (∀ (an bn : String) (af bf : List Value),
      valueEq (.structV an af) (.structV bn bf) = true ↔
        (an = bn ∧ af.length = bf.length ∧
          ∀ i (h1 : i < af.length) (h2 : i < bf.length),
            valueEq (af.get ⟨i, h1⟩) (bf.get ⟨i, h2⟩) = true))
  ∧ (∀ v w : Value, isCallable v = true →
      valueEq v w = false ∧ valueEq w v = false)
  ∧ (∀ (env : Environment) (a b : Value),
      _is_eq env [a, b] = (env, .ok (.bool (valueEq a b)))) := by
  refine ⟨?_, ?_, ?_, ?_, fun env a b => rfl⟩
  · intro a b h
    cases a <;> cases b <;> first | rfl | exact Bool.noConfusion h
  · intro xs ys
    rw [valueEq_list_eq, valueListEq_iff]
  · intro an bn af bf
    show (if an == bn && af.length == bf.length
        then valueListEq af bf else false) = true ↔ _
    by_cases h1 : an = bn
    · by_cases h2 : af.length = bf.length
      · rw [if_pos (by simp [h1, h2]), valueListEq_iff]
        simp [h1, h2]
      · rw [if_neg (by simp [h2])]
        simp [h2]
    · rw [if_neg (by simp [h1])]
      simp [h1]
  · intro v w hc
    cases v <;>
      first
        | exact Bool.noConfusion hc
        | exact ⟨by cases w <;> rfl, by cases w <;> rfl⟩

/-- Witness for `value_equality_spec`: two equal numbers share a variant,
and an intrinsic value is unequal even to itself. -/
theorem value_equality_spec_witness :
    sameVariant (Value.num 1) (Value.num 1) = true
  ∧ valueEq (Value.intrinsic .add) (Value.intrinsic .add) = false :=
  ⟨value_equality_spec.1 (Value.num 1) (Value.num 1) rfl,
    (value_equality_spec.2.2.2.1 (Value.intrinsic .add)
      (Value.intrinsic .add) rfl).1⟩

/-! ## Claim C7 -/

mutual

theorem valueToSexpr_ok_iff : ∀ v : Value,
    (∃ e, valueToSexpr v = .ok e) ↔ hasCallable v = false
  | .num n => by simp [valueToSexpr, hasCallable]
  | .bool b => by simp [valueToSexpr, hasCallable]
  | .str s => by simp [valueToSexpr, hasCallable]
  | .symbol s vr => by simp [valueToSexpr, hasCallable]
  | .list vals => by
      constructor
      · rintro ⟨e, he⟩
        show hasCallableL vals = false
        rcases hv : valueListToSexpr vals with msg | es
        · rw [show valueToSexpr (.list vals)
              = (valueListToSexpr vals).map SExpr.list from rfl, hv] at he
          exact Except.noConfusion he
        · exact (valueListToSexpr_ok_iff vals).mp ⟨es, hv⟩
      · intro h
        obtain ⟨es, hes⟩ := (valueListToSexpr_ok_iff vals).mpr h
        exact ⟨SExpr.list es, by
          rw [show valueToSexpr (.list vals)
            = (valueListToSexpr vals).map SExpr.list from rfl, hes]
          rfl⟩
  | .structV name fields => by
      constructor
      · rintro ⟨e, he⟩
        show hasCallableL fields = false
        rcases hv : valueListToSexpr fields with msg | es
        · rw [show valueToSexpr (.structV name fields)
              = (valueListToSexpr fields).map
                  (fun es => SExpr.list
                    (SExpr.ident ("make-" ++ name) false :: es)) from rfl,
            hv] at he
          exact Except.noConfusion he
        · exact (valueListToSexpr_ok_iff fields).mp ⟨es, hv⟩
      · intro h
        obtain ⟨es, hes⟩ := (valueListToSexpr_ok_iff fields).mpr h
        exact ⟨SExpr.list (SExpr.ident ("make-" ++ name) false :: es), by
          rw [show valueToSexpr (.structV name fields)
            = (valueListToSexpr fields).map
                (fun es => SExpr.list
                  (SExpr.ident ("make-" ++ name) false :: es)) from rfl,
            hes]
          rfl⟩
  | .func p b vr => by simp [valueToSexpr, hasCallable]
  | .intrinsic f => by simp [valueToSexpr, hasCallable]
  | .macroV f => by simp [valueToSexpr, hasCallable]

theorem valueListToSexpr_ok_iff : ∀ vs : List Value,
    (∃ es, valueListToSexpr vs = .ok es) ↔ hasCallableL vs = false
  | [] => by simp [valueListToSexpr, hasCallableL]
  | v :: rest => by
      constructor
      · rintro ⟨es, hes⟩
        show (hasCallable v || hasCallableL rest) = false
        rcases hv : valueToSexpr v with msg | e
        · simp [valueListToSexpr, hv] at hes
        · rcases hr : valueListToSexpr rest with msg2 | es2
          · simp [valueListToSexpr, hv, hr] at hes
          · have h1 := (valueToSexpr_ok_iff v).mp ⟨e, hv⟩
            have h2 := (valueListToSexpr_ok_iff rest).mp ⟨es2, hr⟩
            simp [h1, h2]
      · intro h
        have h' : (hasCallable v || hasCallableL rest) = false := h
        rw [Bool.or_eq_false_iff] at h'
        obtain ⟨e, hv⟩ := (valueToSexpr_ok_iff v).mpr h'.1
        obtain ⟨es, hr⟩ := (valueListToSexpr_ok_iff rest).mpr h'.2
        exact ⟨e :: es, by simp [valueListToSexpr, hv, hr]⟩

end

/-- C7 counterexample: the claim says converting a runtime value back to
a symbolic expression succeeds for lists and struct instances; but a list
containing an intrinsic (and a struct instance containing a handler) hits
the `panic!` arm while converting the element, so the conversion fails
rather than succeeding.  (A closure value fails the conversion as well.) -/
theorem value_to_expr_counterexample :
    valueToSexpr (Value.list [Value.intrinsic .add])
      = Except.error "Evaluating other values is not yet supported."
  ∧ valueToSexpr (Value.structV "P" [Value.macroV .condM])
      = Except.error "Evaluating other values is not yet supported."
  ∧ valueToSexpr (Value.func [] SExpr.nil false)
      = Except.error "Evaluating other values is not yet supported." :=
  ⟨rfl, rfl, rfl⟩

/-- C7 (amended): converting a symbolic expression to a value is total —
the evaluator's quote case always succeeds with the converted value;
converting a value back succeeds exactly when no closure, intrinsic, or
handler occurs anywhere inside it (so for all numbers, booleans, strings
and symbols, and for exactly those lists and struct instances whose
members all convert), a struct instance becoming the list form
`(make-Name field1 ...)`; and intrinsic, handler, and closure values fail
the conversion with the descriptive, non-recoverable panic message. -/
theorem value_expr_conversion_amended :
    (∀ (q : SExpr) (env : Environment) (fuel : Nat),
      (eval (fuel + 1) (SExpr.quote q) env).2 = .ok (sexprToValue q))
  ∧ (∀ v : Value, (∃ e, valueToSexpr v = .ok e) ↔ hasCallable v = false)
  ∧ (∀ (name : String) (fields : List Value) (es : List SExpr),
      valueListToSexpr fields = .ok es →
      valueToSexpr (.structV name fields)
        = .ok (.list (.ident ("make-" ++ name) false :: es)))
  ∧ (∀ (p : List String) (b : SExpr) (vr : Bool),
      valueToSexpr (.func p b vr)
        = .error "Evaluating other values is not yet supported.")
  ∧ (∀ f, valueToSexpr (.intrinsic f)
        = .error "Evaluating other values is not yet supported.")
  ∧ (∀ f, valueToSexpr (.macroV f)
        = .error "Evaluating other values is not yet supported.") := by
  refine ⟨fun q env fuel => rfl, valueToSexpr_ok_iff, ?_,
    fun p b vr => rfl, fun f => rfl, fun f => rfl⟩
  intro name fields es hes
  rw [show valueToSexpr (.structV name fields)
    = (valueListToSexpr fields).map
        (fun es => SExpr.list
          (SExpr.ident ("make-" ++ name) false :: es)) from rfl, hes]
  rfl

/-- Witness for `value_expr_conversion_amended`: quoting a list converts
it wholesale; a struct of two numbers converts to its `make-` list form. -/
theorem value_expr_conversion_amended_witness :
    ((eval 3 (SExpr.quote (.list [.num 1, .bool true])) initialEnv).2
      = .ok (.list [.num 1, .bool true]))
  ∧ (valueToSexpr (.structV "Point" [Value.num 3, Value.num 4])
      = .ok (.list [.ident "make-Point" false, .num 3, .num 4]))
  ∧ (∃ e, valueToSexpr (Value.list [Value.num 1]) = .ok e) := by
  refine ⟨value_expr_conversion_amended.1
      (.list [.num 1, .bool true]) initialEnv 2, ?_, ?_⟩
  · have h := value_expr_conversion_amended.2.2.1 "Point"
      [Value.num 3, Value.num 4] [.num 3, .num 4] rfl
    simpa using h
  · exact (value_expr_conversion_amended.2.1 (Value.list [Value.num 1])).mpr
      rfl

/-! ## Claim C8 -/

/-- C8: after evaluating `(define-struct Point (x y))`,
`(make-Point 3 4)` produces a struct instance on which `Point-x` yields 3,
`Point-y` yields 4, and `Point?` yields true, while `(Point? 5)` yields
false; the constructor rejects a wrong argument count with an exact-arity
error carrying the registered field count; and the accessor reads the
field index from the struct registry at call time — overwriting the
registry entry with the fields swapped makes `Point-x` return the other
field of the same instance expression. -/
theorem struct_round_trip :
    let ds : SExpr := .list [.ident "define-struct" false,
      .ident "Point" false, .list [.ident "x" false, .ident "y" false]]
    let mk : SExpr := .list [.ident "make-Point" false, .num 3, .num 4]
    let env1 := (eval 20 ds initialEnv).1
    ((eval 20 ds initialEnv).2 = .ok nilV)
  ∧ ((eval 20 mk env1).2 = .ok (.structV "Point" [.num 3, .num 4]))
  ∧ ((eval 20 (.list [.ident "Point-x" false, mk]) env1).2
      = .ok (.num 3))
  ∧ ((eval 20 (.list [.ident "Point-y" false, mk]) env1).2
      = .ok (.num 4))
  ∧ ((eval 20 (.list [.ident "Point?" false, mk]) env1).2
      = .ok (.bool true))
  ∧ ((eval 20 (.list [.ident "Point?" false, .num 5]) env1).2
      = .ok (.bool false))
  ∧ ((eval 20 (.list [.ident "make-Point" false, .num 3]) env1).2
      = .error (.arityExact 2 1))
  ∧ ((eval 20 (.list [.ident "Point-x" false, mk])
        (env1.addStruct "Point" ["y", "x"])).2 = .ok (.num 4)) :=
  ⟨rfl, rfl, rfl, rfl, rfl, rfl, rfl, rfl⟩

/-! ## Claim C9 -/

/-- C9: a `let` form evaluates its binding pairs left-to-right in one
fresh scope, each binding being defined before the next binding's
expression is evaluated, and then evaluates the body in that scope:
`(let ((a 1) (b (+ a 1))) b)` evaluates to 2 — the second binding's
expression sees `a` — and after the form returns, neither `a` nor `b`
remains bound (the scope was fresh and has been exited). -/
theorem sequential_let :
    let letEx : SExpr := .list [.ident "let" false,
      .list [.list [.ident "a" false, .num 1],
        .list [.ident "b" false,
          .list [.ident "+" false, .ident "a" false, .num 1]]],
      .ident "b" false]
    ((eval 20 letEx initialEnv).2 = .ok (.num 2))
  ∧ ((eval 5 (.ident "a" false) (eval 20 letEx initialEnv).1).2
      = .error (.unbound "a"))
  ∧ ((eval 5 (.ident "b" false) (eval 20 letEx initialEnv).1).2
      = .error (.unbound "b")) :=
  ⟨rfl, rfl, rfl⟩

/-! ## Claim C10 -/

/-- C10: the standard library registers `bool?` bound to the num-check
intrinsic `_is_num` (`load_checks`), so applying `bool?` to a single
value answers whether that value is a *number*: `(bool? true)` and
`(bool? false)` evaluate to false while `(bool? 3)` evaluates to true. -/
theorem bool_check_is_num_check :
    (initialEnv.get "bool?" = some (.intrinsic .isNum))
  ∧ (∀ (env : Environment) (v : Value),
      _is_num env [v] = (env, .ok (.bool (isNumV v))))
  ∧ (∀ v : Value, isNumV v = true ↔ ∃ n : Int, v = .num n)
  ∧ ((eval 20 (.list [.ident "bool?" false, .bool true]) initialEnv).2
      = .ok (.bool false))
  ∧ ((eval 20 (.list [.ident "bool?" false, .bool false]) initialEnv).2
      = .ok (.bool false))
  ∧ ((eval 20 (.list [.ident "bool?" false, .num 3]) initialEnv).2
      = .ok (.bool true)) := by
  refine ⟨rfl, fun env v => rfl, ?_, rfl, rfl, rfl⟩
  intro v
  constructor
  · intro h
    cases v with
    | num n => exact ⟨n, rfl⟩
    | bool b => exact Bool.noConfusion h
    | str s => exact Bool.noConfusion h
    | symbol s vr => exact Bool.noConfusion h
    | list vs => exact Bool.noConfusion h
    | func p b vr => exact Bool.noConfusion h
    | intrinsic f => exact Bool.noConfusion h
    | macroV f => exact Bool.noConfusion h
    | structV n fs => exact Bool.noConfusion h
  · rintro ⟨n, rfl⟩
    rfl

/-- Witness for `bool_check_is_num_check` at concrete values. -/
theorem bool_check_is_num_check_witness :
    (_is_num initialEnv [Value.bool true]
      = (initialEnv, .ok (.bool (isNumV (Value.bool true)))))
  ∧ (∃ n : Int, Value.num 5 = .num n) :=
  ⟨bool_check_is_num_check.2.1 initialEnv (Value.bool true),
    (bool_check_is_num_check.2.2.1 (Value.num 5)).mp rfl⟩

end RustLisp
